import Mathlib

/-!
Shallow embedding of `merakicommons/ratelimits.py`.

The module defines a rate-limiter contract (`RateLimiter`) with three
implementations: `FixedWindowRateLimiter`, `TokenBucketRateLimiter` and
`MultiRateLimiter`.  Threads interact with a limiter through
`__enter__`/`__exit__` (scoped acquisition), `permits_issued`,
`reset_permits_issued`, and the `limit` decorator.  Background work
(`_reset` for the fixed window, `_provide_tokens` for the token bucket)
runs in timers/threads.

The embedding represents each limiter object as a record of its mutable
fields; every Python method body that runs under the object's locks is a
pure state transformer, and the possible interleavings of threads are a
step relation over the record.  Python `int` fields become `Int`; the
token bucket's `float` fields (`_tokens`, `_token_update`) become `ℚ`,
so the refill arithmetic is exact.  `raise`/`except` becomes `Except`.
The binary `Lock` used as a permit gate becomes a `Bool` field
(`true` = locked/held).
-/

/-- `ValueError` payloads raised by `TokenBucketRateLimiter.__init__`.
`maxBurst` stands for the message Max burst must be >= 1 and <= epoch
permits; `tokenUpdateFrequency` for Token update frequency must be > 0
and <= epoch seconds. -/
inductive ValueError where
  | maxBurst
  | tokenUpdateFrequency
deriving Repr, DecidableEq

/-- `RuntimeError` raised by `Lock.release` when the lock is not held. -/
inductive RuntimeError where
  | releaseUnlocked
deriving Repr, DecidableEq

/-- `Lock.release`: succeeds (lock becomes free) when held, raises
`RuntimeError` when already free.  `true` means held. -/
def gateRelease (g : Bool) : Except RuntimeError Bool :=
  if g then Except.ok false else Except.error RuntimeError.releaseUnlocked

/-- A release wrapped in try/except RuntimeError: pass, as in
`FixedWindowRateLimiter._reset` and `TokenBucketRateLimiter._provide_tokens`. -/
def gateReleaseCaught (g : Bool) : Bool :=
  match gateRelease g with
  | Except.ok g2 => g2
  | Except.error _ => g

theorem gateReleaseCaught_eq_false (g : Bool) : gateReleaseCaught g = false := by
  cases g <;> rfl

/-! ## FixedWindowRateLimiter -/

/-- The mutable fields of a `FixedWindowRateLimiter` object.
`gateHeld` is the state of `self._permitter` (`true` = acquired);
`resetterScheduled` records whether `self._resetter` is a live `Timer`
(`None` ↦ `false`).  `_enter_exit_lock` and `_total_permits_issued_lock`
serialize the method bodies they guard, but `self._permitter.acquire()`
in `__enter__` runs before `_enter_exit_lock` is taken, so `__enter__` is
two separate atomic pieces; the step relation `FWStep` models them as two
steps. -/
structure FWState where
  window_seconds : Int
  window_permits : Int
  permits : Int
  gateHeld : Bool
  total_permits_issued : Int
  currently_processing : Int
  resetterScheduled : Bool
deriving Repr, DecidableEq

/-- `FixedWindowRateLimiter.__init__(window_seconds, window_permits)`:
stores the configuration, sets `_permits = window_permits`, both counters
to 0, the permit gate fresh (unlocked) and no resetter scheduled.
The source performs no argument validation. -/
def FixedWindowRateLimiter.init (window_seconds window_permits : Int) : FWState :=
  { window_seconds := window_seconds
    window_permits := window_permits
    permits := window_permits
    gateHeld := false
    total_permits_issued := 0
    currently_processing := 0
    resetterScheduled := false }

/-- Construction as a fallible operation.  `__init__` contains no `raise`,
so it always returns `ok`. -/
def FixedWindowRateLimiter.mk (window_seconds window_permits : Int) :
    Except ValueError FWState :=
  Except.ok (FixedWindowRateLimiter.init window_seconds window_permits)

/-- Body of `FixedWindowRateLimiter.__enter__` once the permit gate has been
acquired: decrement `_permits`, increment `_total_permits_issued` and
`_currently_processing`, and release the gate again iff `_permits > 0`. -/
def fw_enter (s : FWState) : FWState :=
  let permits := s.permits - 1
  { s with
    permits := permits
    total_permits_issued := s.total_permits_issued + 1
    currently_processing := s.currently_processing + 1
    gateHeld := if 0 < permits then false else true }

/-- `FixedWindowRateLimiter.__exit__`: decrement `_currently_processing`;
if no resetter is scheduled, schedule one. -/
def fw_exit (s : FWState) : FWState :=
  let s2 := { s with currently_processing := s.currently_processing - 1 }
  if s2.resetterScheduled then s2 else { s2 with resetterScheduled := true }

/-- `FixedWindowRateLimiter._reset` (the timer body): set
`_permits = window_permits - _currently_processing`, clear the resetter
handle, and release the permit gate, swallowing the `RuntimeError` raised
when the gate was not held. -/
def fw_reset (s : FWState) : FWState :=
  { s with
    permits := s.window_permits - s.currently_processing
    resetterScheduled := false
    gateHeld := gateReleaseCaught s.gateHeld }

/-- `FixedWindowRateLimiter.reset_permits_issued`. -/
def fw_reset_permits_issued (s : FWState) : FWState :=
  { s with total_permits_issued := 0 }

/-- First half of `FixedWindowRateLimiter.__enter__`: the return of
`self._permitter.acquire()`.  This runs outside `_enter_exit_lock`, so
other threads — in particular a firing `_reset` — can interleave between
it and the locked body below. -/
def fw_acquire_gate (s : FWState) : FWState :=
  { s with gateHeld := true }

/-- Second half of `FixedWindowRateLimiter.__enter__`: the body under
`_enter_exit_lock` and `_total_permits_issued_lock` — decrement
`_permits`, increment `_total_permits_issued` and `_currently_processing`,
and call `self._permitter.release()` iff `_permits > 0`.  If a `_reset`
already released the gate while this thread sat between the two halves,
that release raises (uncaught) but leaves the gate free, so the gate
field still ends `false` whenever `_permits > 0`. -/
def fw_enter_body (s : FWState) : FWState :=
  let permits := s.permits - 1
  { s with
    permits := permits
    total_permits_issued := s.total_permits_issued + 1
    currently_processing := s.currently_processing + 1
    gateHeld := if 0 < permits then false else s.gateHeld }

/-- The whole of `__enter__`, run without interference, is exactly the two
halves back to back (this ties `fw_enter`, used for operation traces, to
the refined steps below). -/
theorem fw_enter_decomposition (s : FWState) :
    fw_enter s = fw_enter_body (fw_acquire_gate s) := rfl

/-- Interleaved execution of threads against one `FixedWindowRateLimiter`.
The second component of a configuration counts the threads that have
completed `self._permitter.acquire()` in `__enter__` but have not yet run
the locked body: because that acquire sits outside `_enter_exit_lock`,
`reset` can fire between `enterGate` and `enterBody`, and its release
frees the gate even while such a paused thread holds it.  `enterGate`
needs the gate free, `enterBody` a thread past the gate, `exit_` a thread
inside the protected region, `reset` a scheduled timer. -/
inductive FWStep : FWState × Int → FWState × Int → Prop where
  | enterGate (s : FWState) (k : Int) :
      s.gateHeld = false → FWStep (s, k) (fw_acquire_gate s, k + 1)
  | enterBody (s : FWState) (k : Int) :
      0 < k → FWStep (s, k) (fw_enter_body s, k - 1)
  | exit_ (s : FWState) (k : Int) :
      0 < s.currently_processing → FWStep (s, k) (fw_exit s, k)
  | reset (s : FWState) (k : Int) :
      s.resetterScheduled = true → FWStep (s, k) (fw_reset s, k)
  | resetIssued (s : FWState) (k : Int) :
      FWStep (s, k) (fw_reset_permits_issued s, k)

/-- Configurations reachable from `p0` by any interleaving of operations. -/
def FWReachable (p0 p : FWState × Int) : Prop :=
  Relation.ReflTransGen FWStep p0 p

theorem fw_exit_eq (s : FWState) :
    fw_exit s =
      { s with currently_processing := s.currently_processing - 1,
               resetterScheduled := true } := by
  obtain ⟨ws, wp, p, g, t, c, r⟩ := s
  cases r <;> rfl

theorem fwStep_window_permits {p q : FWState × Int} (h : FWStep p q) :
    q.1.window_permits = p.1.window_permits := by
  cases h with
  | enterGate s k hg => rfl
  | enterBody s k hk => rfl
  | exit_ s k hc => show (fw_exit s).window_permits = _; rw [fw_exit_eq]
  | reset s k hr => rfl
  | resetIssued s k => rfl

theorem fwReachable_window_permits {p0 p : FWState × Int}
    (h : FWReachable p0 p) : p.1.window_permits = p0.1.window_permits := by
  induction h with
  | refl => rfl
  | tail _ hstep ih => rw [fwStep_window_permits hstep, ih]

/-! ### Invariant of the fixed-window limiter -/

/-- Inductive invariant of `FixedWindowRateLimiter` under the refined
(split-`__enter__`) step relation: the in-flight counter is non-negative
and the remaining capacity never exceeds the window capacity.  There is
no lower bound on `permits` — the racing reset refutes it (see the C2
counterexample). -/
def FWInv (p : FWState × Int) : Prop :=
  0 ≤ p.1.currently_processing ∧ p.1.permits ≤ p.1.window_permits

theorem fwInv_init (ws wp : Int) :
    FWInv (FixedWindowRateLimiter.init ws wp, 0) :=
  ⟨le_refl 0, le_refl wp⟩

theorem fwInv_step {p q : FWState × Int} (hst : FWStep p q) (hinv : FWInv p) :
    FWInv q := by
  cases hst with
  | enterGate s k hg => exact ⟨hinv.1, hinv.2⟩
  | enterBody s k hk =>
    have h1 : 0 ≤ s.currently_processing := hinv.1
    have h2 : s.permits ≤ s.window_permits := hinv.2
    exact ⟨show 0 ≤ s.currently_processing + 1 by omega,
      show s.permits - 1 ≤ s.window_permits by omega⟩
  | exit_ s k hc =>
    have h2 : s.permits ≤ s.window_permits := hinv.2
    constructor
    · show 0 ≤ (fw_exit s).currently_processing
      rw [fw_exit_eq]
      show 0 ≤ s.currently_processing - 1
      omega
    · show (fw_exit s).permits ≤ (fw_exit s).window_permits
      rw [fw_exit_eq]
      exact h2
  | reset s k hr =>
    have h1 : 0 ≤ s.currently_processing := hinv.1
    exact ⟨h1,
      show s.window_permits - s.currently_processing ≤ s.window_permits by omega⟩
  | resetIssued s k => exact ⟨hinv.1, hinv.2⟩

theorem fwInv_reachable {p0 p : FWState × Int} (h : FWReachable p0 p)
    (h0 : FWInv p0) : FWInv p := by
  induction h with
  | refl => exact h0
  | tail _ hstep ih => exact fwInv_step hstep ih

/-! ## TokenBucketRateLimiter -/

/-- The mutable fields of a `TokenBucketRateLimiter` object.  `tokens` and
`token_update` are `float` in the source; the embedding uses `ℚ`, making
the refill arithmetic exact.  `providerRunning` records whether
`self._token_provider` is a live thread (`None` ↦ `false`). -/
structure TBState where
  epoch_seconds : Int
  epoch_permits : Int
  token_limit : Int
  tokens : ℚ
  gateHeld : Bool
  total_permits_issued : Int
  token_update : ℚ
  providerRunning : Bool
deriving Repr, DecidableEq

/-- `TokenBucketRateLimiter.__init__(epoch_seconds, epoch_permits,
max_burst, token_update_frequency)`: validates `1 ≤ max_burst ≤
epoch_permits` and `0 < token_update_frequency ≤ epoch_seconds`, raising
`ValueError` otherwise before any state is attached; on success starts
with a full bucket (`_tokens = _token_limit = max_burst`), a fresh permit
gate and no provider thread. -/
def TokenBucketRateLimiter.mk (epoch_seconds epoch_permits max_burst : Int)
    (token_update_frequency : ℚ) : Except ValueError TBState :=
  if max_burst < 1 ∨ max_burst > epoch_permits then
    Except.error ValueError.maxBurst
  else if token_update_frequency ≤ 0 ∨ token_update_frequency > (epoch_seconds : ℚ) then
    Except.error ValueError.tokenUpdateFrequency
  else
    Except.ok
      { epoch_seconds := epoch_seconds
        epoch_permits := epoch_permits
        token_limit := max_burst
        tokens := (max_burst : ℚ)
        gateHeld := false
        total_permits_issued := 0
        token_update := token_update_frequency
        providerRunning := false }

/-- Body of `TokenBucketRateLimiter.__enter__` once the permit gate has
been acquired: decrement `_tokens`, increment `_total_permits_issued`,
and release the gate again iff `_tokens >= 1`. -/
def tb_enter (s : TBState) : TBState :=
  let tokens := s.tokens - 1
  { s with
    tokens := tokens
    total_permits_issued := s.total_permits_issued + 1
    gateHeld := if 1 ≤ tokens then false else true }

/-- `TokenBucketRateLimiter.__exit__`: start the token-provider thread if
none is running. -/
def tb_exit (s : TBState) : TBState :=
  if s.providerRunning then s else { s with providerRunning := true }

/-- `tokens_per_segment` computed at the top of `_provide_tokens`:
`epoch_permits / (epoch_seconds / token_update_frequency)`. -/
def tokens_per_segment (s : TBState) : ℚ :=
  (s.epoch_permits : ℚ) / ((s.epoch_seconds : ℚ) / s.token_update)

/-- `segments_per_epoch` computed in `_provide_tokens`:
`int(ceil(epoch_seconds / token_update_frequency))`. -/
def segments_per_epoch (s : TBState) : Int :=
  Int.ceil ((s.epoch_seconds : ℚ) / s.token_update)

/-- The token-update portion of one iteration of the `_provide_tokens`
loop: a full bucket extends the full streak; otherwise tokens are topped
up by `tokens_per_segment` (capped at the limit) and the streak resets,
with the permit gate released (RuntimeError swallowed) when the bucket
crosses to `>= 1` from below.  Returns the new object state and the new
`segments_full` local. -/
def tb_tick_core (s : TBState) (segments_full : Int) : TBState × Int :=
  if s.tokens = (s.token_limit : ℚ) then
    (s, segments_full + 1)
  else if s.tokens < 1 then
    let tokens := min (s.tokens + tokens_per_segment s) ((s.token_limit : ℚ))
    ({ s with
        tokens := tokens
        gateHeld := if 1 ≤ tokens then gateReleaseCaught s.gateHeld else s.gateHeld },
      0)
  else
    ({ s with tokens := min (s.tokens + tokens_per_segment s) ((s.token_limit : ℚ)) },
      0)

/-- One full iteration of the `_provide_tokens` loop: the token update
followed by the self-termination check — when `segments_full` has reached
`segments_per_epoch`, the thread clears its own handle and stops. -/
def tb_tick (s : TBState) (segments_full : Int) : TBState × Int :=
  let p := tb_tick_core s segments_full
  if segments_per_epoch s ≤ p.2 then ({ p.1 with providerRunning := false }, p.2)
  else p

/-- `TokenBucketRateLimiter.reset_permits_issued`. -/
def tb_reset_permits_issued (s : TBState) : TBState :=
  { s with total_permits_issued := 0 }

/-- Interleaved execution of threads against one `TokenBucketRateLimiter`:
an `enter` can complete only when the permit gate is free; a `tick` only
while the provider thread is alive (its `segments_full` local is
universally quantified, which only adds behaviours). -/
inductive TBStep : TBState → TBState → Prop where
  | enter (s : TBState) : s.gateHeld = false → TBStep s (tb_enter s)
  | exit_ (s : TBState) : TBStep s (tb_exit s)
  | tick (s : TBState) (n : Int) : s.providerRunning = true → TBStep s (tb_tick s n).1
  | resetIssued (s : TBState) : TBStep s (tb_reset_permits_issued s)

/-- States reachable from `s0` by any interleaving of operations. -/
def TBReachable (s0 s : TBState) : Prop :=
  Relation.ReflTransGen TBStep s0 s

theorem tb_exit_eq (s : TBState) : tb_exit s = { s with providerRunning := true } := by
  obtain ⟨es, ep, tl, tk, g, t, tu, pr⟩ := s
  cases pr <;> rfl

theorem tb_tick_core_fields (s : TBState) (n : Int) :
    (tb_tick_core s n).1.epoch_seconds = s.epoch_seconds ∧
    (tb_tick_core s n).1.epoch_permits = s.epoch_permits ∧
    (tb_tick_core s n).1.token_limit = s.token_limit ∧
    (tb_tick_core s n).1.token_update = s.token_update ∧
    (tb_tick_core s n).1.total_permits_issued = s.total_permits_issued ∧
    (tb_tick_core s n).1.providerRunning = s.providerRunning := by
  unfold tb_tick_core
  split
  · exact ⟨rfl, rfl, rfl, rfl, rfl, rfl⟩
  · split
    · exact ⟨rfl, rfl, rfl, rfl, rfl, rfl⟩
    · exact ⟨rfl, rfl, rfl, rfl, rfl, rfl⟩

theorem tb_tick_eq_core (s : TBState) (n : Int) :
    (tb_tick s n).1.tokens = (tb_tick_core s n).1.tokens ∧
    (tb_tick s n).1.gateHeld = (tb_tick_core s n).1.gateHeld ∧
    (tb_tick s n).1.total_permits_issued = (tb_tick_core s n).1.total_permits_issued ∧
    (tb_tick s n).2 = (tb_tick_core s n).2 := by
  unfold tb_tick
  dsimp only
  split <;> exact ⟨rfl, rfl, rfl, rfl⟩

theorem tbStep_config {s t : TBState} (h : TBStep s t) :
    t.epoch_seconds = s.epoch_seconds ∧ t.epoch_permits = s.epoch_permits ∧
    t.token_limit = s.token_limit ∧ t.token_update = s.token_update := by
  cases h with
  | enter _ => exact ⟨rfl, rfl, rfl, rfl⟩
  | exit_ => rw [tb_exit_eq]; exact ⟨rfl, rfl, rfl, rfl⟩
  | tick n _ =>
    obtain ⟨e1, e2, e3, e4, _, _⟩ := tb_tick_core_fields s n
    unfold tb_tick
    dsimp only
    split <;> exact ⟨e1, e2, e3, e4⟩
  | resetIssued => exact ⟨rfl, rfl, rfl, rfl⟩

theorem tbReachable_config {s0 s : TBState} (h : TBReachable s0 s) :
    s.epoch_seconds = s0.epoch_seconds ∧ s.epoch_permits = s0.epoch_permits ∧
    s.token_limit = s0.token_limit ∧ s.token_update = s0.token_update := by
  induction h with
  | refl => exact ⟨rfl, rfl, rfl, rfl⟩
  | tail _ hstep ih =>
    obtain ⟨e1, e2, e3, e4⟩ := tbStep_config hstep
    exact ⟨e1.trans ih.1, e2.trans ih.2.1, e3.trans ih.2.2.1, e4.trans ih.2.2.2⟩

/-- The successful result of `TokenBucketRateLimiter.__init__`, field by
field. -/
theorem tb_mk_fields {es ep mb : Int} {tuf : ℚ} {t : TBState}
    (h : TokenBucketRateLimiter.mk es ep mb tuf = Except.ok t) :
    t.token_limit = mb ∧ t.tokens = (mb : ℚ) ∧ t.total_permits_issued = 0 ∧
    t.epoch_seconds = es ∧ t.epoch_permits = ep ∧ t.token_update = tuf ∧
    t.gateHeld = false ∧ t.providerRunning = false := by
  unfold TokenBucketRateLimiter.mk at h
  split at h
  · exact absurd h (by simp)
  · split at h
    · exact absurd h (by simp)
    · injection h with h2
      subst h2
      exact ⟨rfl, rfl, rfl, rfl, rfl, rfl, rfl, rfl⟩

/-! ### Invariant of the token-bucket limiter -/

/-- Inductive invariant of `TokenBucketRateLimiter`: the validated
configuration bounds, the token count within `[0, max_burst]`, and an
open permit gate implies at least one whole token. -/
def TBInv (s : TBState) : Prop :=
  1 ≤ s.token_limit ∧
  s.token_limit ≤ s.epoch_permits ∧
  0 < s.token_update ∧
  s.token_update ≤ (s.epoch_seconds : ℚ) ∧
  0 ≤ s.tokens ∧
  s.tokens ≤ (s.token_limit : ℚ) ∧
  (s.gateHeld = false → 1 ≤ s.tokens)

theorem tokens_per_segment_pos {s : TBState} (h : TBInv s) :
    0 < tokens_per_segment s := by
  obtain ⟨h1, h2, h3, h4, _, _, _⟩ := h
  unfold tokens_per_segment
  have hep : (0 : ℚ) < (s.epoch_permits : ℚ) := by
    have h1ep : (1 : Int) ≤ s.epoch_permits := le_trans h1 h2
    exact_mod_cast lt_of_lt_of_le Int.zero_lt_one h1ep
  have hes : (0 : ℚ) < (s.epoch_seconds : ℚ) := lt_of_lt_of_le h3 h4
  exact div_pos hep (div_pos hes h3)

theorem tbInv_mk {es ep mb : Int} {tuf : ℚ} {t : TBState}
    (h : TokenBucketRateLimiter.mk es ep mb tuf = Except.ok t) : TBInv t := by
  unfold TokenBucketRateLimiter.mk at h
  split at h
  next hc1 => exact absurd h (by simp)
  next hc1 =>
    split at h
    next hc2 => exact absurd h (by simp)
    next hc2 =>
      injection h with h2
      subst h2
      push_neg at hc1 hc2
      unfold TBInv
      dsimp only
      have hmb1 : (1 : ℚ) ≤ (mb : ℚ) := by exact_mod_cast hc1.1
      exact ⟨hc1.1, hc1.2, hc2.1, hc2.2, by linarith, le_refl _, fun _ => hmb1⟩

theorem tbInv_tick_core {s : TBState} (n : Int) (hinv : TBInv s) :
    TBInv (tb_tick_core s n).1 := by
  have htps := tokens_per_segment_pos hinv
  obtain ⟨h1, h2, h3, h4, h5, h6, h7⟩ := hinv
  have hlim1 : (1 : ℚ) ≤ (s.token_limit : ℚ) := by exact_mod_cast h1
  unfold tb_tick_core
  split
  next heq => exact ⟨h1, h2, h3, h4, h5, h6, h7⟩
  next hne =>
    split
    next hlt =>
      dsimp only
      refine ⟨h1, h2, h3, h4, le_min (by linarith) (by linarith),
        min_le_right _ _, ?_⟩
      intro hg
      by_cases hx : 1 ≤ min (s.tokens + tokens_per_segment s) ((s.token_limit : ℚ))
      · exact hx
      · rw [if_neg hx] at hg
        exact absurd (h7 hg) (by linarith)
    next hge =>
      push_neg at hge
      dsimp only
      exact ⟨h1, h2, h3, h4, le_min (by linarith) (by linarith),
        min_le_right _ _, fun _ => le_min (by linarith) hlim1⟩

theorem tbInv_step {s t : TBState} (hst : TBStep s t) (hinv : TBInv s) : TBInv t := by
  obtain ⟨h1, h2, h3, h4, h5, h6, h7⟩ := hinv
  cases hst with
  | enter hg =>
    have h7g := h7 hg
    simp only [tb_enter, TBInv]
    refine ⟨h1, h2, h3, h4, by linarith, by linarith, ?_⟩
    intro hgate
    by_cases hx : 1 ≤ s.tokens - 1
    · exact hx
    · rw [if_neg hx] at hgate
      simp at hgate
  | exit_ =>
    rw [tb_exit_eq]
    exact ⟨h1, h2, h3, h4, h5, h6, h7⟩
  | tick n hp =>
    have hcore := tbInv_tick_core n ⟨h1, h2, h3, h4, h5, h6, h7⟩
    obtain ⟨g1, g2, g3, g4, g5, g6, g7⟩ := hcore
    unfold tb_tick
    dsimp only
    split
    · exact ⟨g1, g2, g3, g4, g5, g6, g7⟩
    · exact ⟨g1, g2, g3, g4, g5, g6, g7⟩
  | resetIssued => exact ⟨h1, h2, h3, h4, h5, h6, h7⟩

theorem tbInv_reachable {s0 s : TBState} (h : TBReachable s0 s) (h0 : TBInv s0) :
    TBInv s := by
  induction h with
  | refl => exact h0
  | tail _ hstep ih => exact tbInv_step hstep ih

/-! ### Shared concrete states for instantiation -/

/-- The state built by `TokenBucketRateLimiter(1, 6, 2, 1/6)` — the
configuration used by the repository's token-bucket tests. -/
def tbStart : TBState :=
  { epoch_seconds := 1
    epoch_permits := 6
    token_limit := 2
    tokens := ((2 : Int) : ℚ)
    gateHeld := false
    total_permits_issued := 0
    token_update := 1/6
    providerRunning := false }

theorem tbStart_mk : TokenBucketRateLimiter.mk 1 6 2 (1/6) = Except.ok tbStart := by
  unfold TokenBucketRateLimiter.mk
  rw [if_neg (by norm_num), if_neg (by norm_num)]
  rfl

theorem tb_tick_providerRunning (s : TBState) (n : Int) :
    (tb_tick s n).1.providerRunning
      = (if segments_per_epoch s ≤ (tb_tick_core s n).2 then false
          else (tb_tick_core s n).1.providerRunning) := by
  unfold tb_tick
  dsimp only
  split
  · rfl
  · rfl

/-! ## Claims about construction and capacity -/

/-- C1 (counterexample): the claim says construction must fail with a
configuration error whenever `window_permits < 1` or
`window_seconds <= 0`; but `FixedWindowRateLimiter.__init__` performs no
validation at all, so `FixedWindowRateLimiter(0, 0)` — with
`window_permits = 0 < 1` and `window_seconds = 0 <= 0` — succeeds. -/
theorem c1_counterexample :
    FixedWindowRateLimiter.mk 0 0 = Except.ok (FixedWindowRateLimiter.init 0 0) ∧
    (0 : Int) < 1 ∧ (0 : Int) ≤ 0 :=
  ⟨rfl, by decide, by decide⟩

/-- C1 (amended): construction of `FixedWindowRateLimiter` never fails —
the constructor validates nothing — and for every pair of arguments it
succeeds with the remaining-capacity counter `_permits` initialized to
`window_permits`. -/
theorem c1_construction_always_succeeds (window_seconds window_permits : Int) :
    FixedWindowRateLimiter.mk window_seconds window_permits
        = Except.ok (FixedWindowRateLimiter.init window_seconds window_permits) ∧
    (FixedWindowRateLimiter.init window_seconds window_permits).permits
        = window_permits :=
  ⟨rfl, rfl⟩

/-- The final limiter state of the 14-step interleaving proved reachable
below, with `window_permits = 2`: threads X and Y fill the window; X
exits, scheduling a reset; thread C passes `_permitter.acquire()` and
pauses before the locked body; that reset restores one permit and a
second reset (scheduled by Y's exit) releases the gate out from under
the paused C; threads D and E then consume the restored capacity, and
C's locked body finally runs, driving `_permits` to `-1`. -/
def c2Bad : FWState :=
  fw_enter_body (fw_enter_body (fw_acquire_gate (fw_enter_body
    (fw_acquire_gate (fw_reset (fw_exit (fw_acquire_gate (fw_reset
      (fw_exit (fw_enter_body (fw_acquire_gate (fw_enter_body
        (fw_acquire_gate (FixedWindowRateLimiter.init 1 2))))))))))))))

/-- C2 (counterexample): the stated lower bound fails even for a
well-formed configuration.  Because `self._permitter.acquire()` in
`__enter__` runs outside `_enter_exit_lock`, a firing `_reset` can
release the gate out from under a thread paused between its gate acquire
and its locked body; with `window_permits = 2` the interleaving recorded
in `c2Bad` is reachable and leaves the remaining-capacity counter at
`-1 < 0`. -/
theorem c2_counterexample :
    FWReachable (FixedWindowRateLimiter.init 1 2, 0) (c2Bad, 0) ∧
    c2Bad.permits < 0 := by
  constructor
  · exact
      Relation.ReflTransGen.head (FWStep.enterGate _ _ (by decide))
        (Relation.ReflTransGen.head (FWStep.enterBody _ _ (by decide))
        (Relation.ReflTransGen.head (FWStep.enterGate _ _ (by decide))
        (Relation.ReflTransGen.head (FWStep.enterBody _ _ (by decide))
        (Relation.ReflTransGen.head (FWStep.exit_ _ _ (by decide))
        (Relation.ReflTransGen.head (FWStep.reset _ _ (by decide))
        (Relation.ReflTransGen.head (FWStep.enterGate _ _ (by decide))
        (Relation.ReflTransGen.head (FWStep.exit_ _ _ (by decide))
        (Relation.ReflTransGen.head (FWStep.reset _ _ (by decide))
        (Relation.ReflTransGen.head (FWStep.enterGate _ _ (by decide))
        (Relation.ReflTransGen.head (FWStep.enterBody _ _ (by decide))
        (Relation.ReflTransGen.head (FWStep.enterGate _ _ (by decide))
        (Relation.ReflTransGen.head (FWStep.enterBody _ _ (by decide))
        (Relation.ReflTransGen.head (FWStep.enterBody _ _ (by decide))
          Relation.ReflTransGen.refl)))))))))))))
  · decide

/-- C2 (amended): in every reachable configuration the token bucket's
counter stays within `[0, max_burst]`, and the fixed window's counter
never exceeds `window_permits`; the fixed window has no lower bound —
`0 ≤ permits` is refuted by the racing reset of the counterexample, a
consequence of `_permitter.acquire()` not being covered by
`_enter_exit_lock` in `__enter__`. -/
theorem c2_capacity_bounds (ws wp : Int) (p : FWState × Int)
    (es ep mb : Int) (tuf : ℚ) (t0 t : TBState)
    (hs : FWReachable (FixedWindowRateLimiter.init ws wp, 0) p)
    (hmk : TokenBucketRateLimiter.mk es ep mb tuf = Except.ok t0)
    (ht : TBReachable t0 t) :
    p.1.permits ≤ wp ∧
    (0 ≤ t.tokens ∧ t.tokens ≤ (mb : ℚ)) := by
  constructor
  · have hinv := fwInv_reachable hs (fwInv_init ws wp)
    have h2 := hinv.2
    have hwpp : p.1.window_permits = wp := fwReachable_window_permits hs
    omega
  · obtain ⟨_, _, _, _, g5, g6, _⟩ := tbInv_reachable ht (tbInv_mk hmk)
    have hlim : t.token_limit = mb := by
      have hcfg := (tbReachable_config ht).2.2.1
      rw [hcfg, (tb_mk_fields hmk).1]
    rw [hlim] at g6
    exact ⟨g5, g6⟩

/-- C2 witness, at the freshly constructed `FixedWindowRateLimiter(1, 5)`
and `TokenBucketRateLimiter(1, 6, 2, 1/6)`. -/
theorem c2_capacity_bounds_witness :
    (FixedWindowRateLimiter.init 1 5, (0 : Int)).1.permits ≤ 5 ∧
    (0 ≤ tbStart.tokens ∧ tbStart.tokens ≤ ((2 : Int) : ℚ)) :=
  c2_capacity_bounds 1 5 (FixedWindowRateLimiter.init 1 5, 0) 1 6 2 (1/6)
    tbStart tbStart Relation.ReflTransGen.refl tbStart_mk
    Relation.ReflTransGen.refl

/-- C4: `TokenBucketRateLimiter.__init__` raises `ValueError` exactly when
`max_burst < 1` or `max_burst > epoch_permits` or
`token_update_frequency <= 0` or `token_update_frequency > epoch_seconds`;
on failure the `Except.error` result carries no limiter state at all
(construction is atomic), and on success the bucket starts with
`max_burst` tokens. -/
theorem c4_tb_construction (epoch_seconds epoch_permits max_burst : Int)
    (token_update_frequency : ℚ) :
    ((∃ e, TokenBucketRateLimiter.mk epoch_seconds epoch_permits max_burst
        token_update_frequency = Except.error e) ↔
      (max_burst < 1 ∨ max_burst > epoch_permits ∨ token_update_frequency ≤ 0 ∨
        token_update_frequency > (epoch_seconds : ℚ))) ∧
    (∀ t : TBState,
      TokenBucketRateLimiter.mk epoch_seconds epoch_permits max_burst
          token_update_frequency = Except.ok t →
        t.tokens = (max_burst : ℚ)) := by
  constructor
  · unfold TokenBucketRateLimiter.mk
    split
    next hc => exact ⟨fun _ => by tauto, fun _ => ⟨ValueError.maxBurst, rfl⟩⟩
    next hc =>
      split
      next hc2 =>
        exact ⟨fun _ => by tauto, fun _ => ⟨ValueError.tokenUpdateFrequency, rfl⟩⟩
      next hc2 =>
        push_neg at hc hc2
        obtain ⟨hca, hcb⟩ := hc
        obtain ⟨hcc, hcd⟩ := hc2
        constructor
        · rintro ⟨e, he⟩
          exact absurd he (by simp)
        · rintro (h | h | h | h)
          · exact absurd h (by omega)
          · exact absurd h (by omega)
          · exact absurd h (by linarith)
          · exact absurd h (by linarith)
  · intro t h
    exact (tb_mk_fields h).2.1

/-- C4 witness: `TokenBucketRateLimiter(1, 6, 0, 1/6)` fails
(`max_burst = 0 < 1`), and `TokenBucketRateLimiter(1, 6, 2, 1/6)`
starts with 2 tokens. -/
theorem c4_tb_construction_witness :
    ((∃ e, TokenBucketRateLimiter.mk 1 6 0 (1/6) = Except.error e) ↔
      ((0 : Int) < 1 ∨ (0 : Int) > 6 ∨ (1/6 : ℚ) ≤ 0 ∨
        (1/6 : ℚ) > ((1 : Int) : ℚ))) ∧
    tbStart.tokens = ((2 : Int) : ℚ) :=
  ⟨(c4_tb_construction 1 6 0 (1/6)).1,
    (c4_tb_construction 1 6 2 (1/6)).2 tbStart tbStart_mk⟩

/-- C5: the fixed-window reset clears the scheduled-resetter handle, sets
the remaining capacity to exactly `window_permits - currently_processing`,
and leaves the permit gate released whatever its previous state was: the
`RuntimeError` from releasing an already-released gate is caught inside
`_reset` and never escapes (the reset is a total function of the state). -/
theorem c5_reset_behavior (s : FWState) :
    (fw_reset s).resetterScheduled = false ∧
    (fw_reset s).permits = s.window_permits - s.currently_processing ∧
    (fw_reset s).gateHeld = false :=
  ⟨rfl, rfl, gateReleaseCaught_eq_false s.gateHeld⟩

/-- C6: on a refill tick whose pre-state token count is strictly below
`max_burst`, the token count becomes
`min (tokens + epoch_permits / (epoch_seconds / token_update_frequency))
max_burst` — an increase of exactly `tokens_per_segment`, capped at the
limit — and the permit gate field ends released exactly when the count
crosses from `< 1` to `≥ 1` on this tick (a release with no waiter is a
swallowed no-op), otherwise it keeps its previous state. -/
theorem c6_refill_amount (s : TBState) (n : Int)
    (h : s.tokens < (s.token_limit : ℚ)) :
    (tb_tick s n).1.tokens
        = min (s.tokens + tokens_per_segment s) ((s.token_limit : ℚ)) ∧
    (tb_tick s n).1.gateHeld =
      (if s.tokens < 1 ∧
          1 ≤ min (s.tokens + tokens_per_segment s) ((s.token_limit : ℚ))
        then false else s.gateHeld) := by
  obtain ⟨e1, e2, _, _⟩ := tb_tick_eq_core s n
  rw [e1, e2]
  have hne : ¬ (s.tokens = (s.token_limit : ℚ)) := ne_of_lt h
  unfold tb_tick_core
  rw [if_neg hne]
  by_cases hlt : s.tokens < 1
  · rw [if_pos hlt]
    constructor
    · rfl
    · show (if 1 ≤ min (s.tokens + tokens_per_segment s) ((s.token_limit : ℚ))
          then gateReleaseCaught s.gateHeld else s.gateHeld) = _
      by_cases hx : 1 ≤ min (s.tokens + tokens_per_segment s) ((s.token_limit : ℚ))
      · rw [if_pos hx, if_pos (show s.tokens < 1 ∧ _ from ⟨hlt, hx⟩),
          gateReleaseCaught_eq_false]
      · rw [if_neg hx, if_neg (show ¬ (s.tokens < 1 ∧ _) from fun hc => hx hc.2)]
  · rw [if_neg hlt]
    refine ⟨rfl, ?_⟩
    show s.gateHeld = _
    rw [if_neg (show ¬ (s.tokens < 1 ∧ _) from fun hc => hlt hc.1)]

/-- C6 witness: one tick after a single acquisition on
`TokenBucketRateLimiter(1, 6, 2, 1/6)` (1 token left, below the burst
limit of 2). -/
theorem c6_refill_amount_witness :
    (tb_tick (tb_enter tbStart) 0).1.tokens
        = min ((tb_enter tbStart).tokens + tokens_per_segment (tb_enter tbStart))
            (((tb_enter tbStart).token_limit : ℚ)) ∧
    (tb_tick (tb_enter tbStart) 0).1.gateHeld =
      (if (tb_enter tbStart).tokens < 1 ∧
          1 ≤ min ((tb_enter tbStart).tokens + tokens_per_segment (tb_enter tbStart))
              (((tb_enter tbStart).token_limit : ℚ))
        then false else (tb_enter tbStart).gateHeld) :=
  c6_refill_amount (tb_enter tbStart) 0 (by norm_num [tb_enter, tbStart])

/-- C7: while the provider thread is alive, each loop iteration leaves
`segments_full` at `n + 1` when the bucket was full and resets it to `0`
on any tick that tops the bucket up; and the iteration terminates the
thread — clearing `self._token_provider` — if and only if the resulting
streak has reached `ceil(epoch_seconds / token_update_frequency)`, a full
epoch's worth of ticks. -/
theorem c7_provider_termination (s : TBState) (n : Int)
    (hp : s.providerRunning = true) :
    (tb_tick s n).2 = (if s.tokens = (s.token_limit : ℚ) then n + 1 else 0) ∧
    ((tb_tick s n).1.providerRunning = false ↔
      Int.ceil ((s.epoch_seconds : ℚ) / s.token_update) ≤ (tb_tick s n).2) := by
  have hcore2 : (tb_tick_core s n).2
      = (if s.tokens = (s.token_limit : ℚ) then n + 1 else 0) := by
    unfold tb_tick_core
    by_cases hc : s.tokens = (s.token_limit : ℚ)
    · rw [if_pos hc, if_pos hc]
    · rw [if_neg hc, if_neg hc]
      by_cases hl : s.tokens < 1
      · rw [if_pos hl]
      · rw [if_neg hl]
  have hsnd : (tb_tick s n).2 = (tb_tick_core s n).2 := (tb_tick_eq_core s n).2.2.2
  have hcorep : (tb_tick_core s n).1.providerRunning = true := by
    rw [(tb_tick_core_fields s n).2.2.2.2.2, hp]
  refine ⟨hsnd.trans hcore2, ?_⟩
  rw [hsnd, tb_tick_providerRunning]
  by_cases hif : segments_per_epoch s ≤ (tb_tick_core s n).2
  · rw [if_pos hif]
    exact ⟨fun _ => hif, fun _ => rfl⟩
  · rw [if_neg hif, hcorep]
    exact ⟨fun hl => absurd hl (by simp), fun hr => absurd hr hif⟩

/-- C7 witness: the first tick of the provider started by the exit of a
single acquisition on `TokenBucketRateLimiter(1, 6, 2, 1/6)`. -/
theorem c7_provider_termination_witness :
    (tb_tick (tb_exit (tb_enter tbStart)) 0).2
        = (if (tb_exit (tb_enter tbStart)).tokens
              = ((tb_exit (tb_enter tbStart)).token_limit : ℚ) then 0 + 1 else 0) ∧
    ((tb_tick (tb_exit (tb_enter tbStart)) 0).1.providerRunning = false ↔
      Int.ceil (((tb_exit (tb_enter tbStart)).epoch_seconds : ℚ)
          / (tb_exit (tb_enter tbStart)).token_update)
        ≤ (tb_tick (tb_exit (tb_enter tbStart)) 0).2) :=
  c7_provider_termination (tb_exit (tb_enter tbStart)) 0 rfl

/-! ## Operation traces and the issued counter -/

/-- Completed operations a thread can perform against a
`FixedWindowRateLimiter` (enter, exit, timer reset, counter reset). -/
inductive FWOp where
  | enter
  | exit_
  | reset
  | resetIssued
deriving Repr, DecidableEq

def FWOp.isEnter : FWOp → Bool
  | .enter => true
  | _ => false

def FWOp.isExit : FWOp → Bool
  | .exit_ => true
  | _ => false

def FWOp.isResetIssued : FWOp → Bool
  | .resetIssued => true
  | _ => false

def fw_apply (s : FWState) : FWOp → FWState
  | .enter => fw_enter s
  | .exit_ => fw_exit s
  | .reset => fw_reset s
  | .resetIssued => fw_reset_permits_issued s

/-- Run a sequence of completed operations against a fixed-window state. -/
def fw_run (s : FWState) (ops : List FWOp) : FWState :=
  ops.foldl fw_apply s

/-- Completed operations against a `TokenBucketRateLimiter`; `tick n` is
one provider-loop iteration whose `segments_full` local holds `n`. -/
inductive TBOp where
  | enter
  | exit_
  | tick (n : Int)
  | resetIssued
deriving Repr, DecidableEq

def TBOp.isEnter : TBOp → Bool
  | .enter => true
  | _ => false

def TBOp.isResetIssued : TBOp → Bool
  | .resetIssued => true
  | _ => false

def tb_apply (s : TBState) : TBOp → TBState
  | .enter => tb_enter s
  | .exit_ => tb_exit s
  | .tick n => (tb_tick s n).1
  | .resetIssued => tb_reset_permits_issued s

/-- Run a sequence of completed operations against a token-bucket state. -/
def tb_run (s : TBState) (ops : List TBOp) : TBState :=
  ops.foldl tb_apply s

/-- Specification-side count: the number of operations satisfying
`isCounted` performed after the most recent operation satisfying
`isReset` (or after the start of the trace). -/
def countSinceReset {α : Type} (isCounted isReset : α → Bool) (ops : List α) : Int :=
  ops.foldl
    (fun n op => if isReset op then 0 else if isCounted op then n + 1 else n) 0

theorem foldl_count_nonneg {α : Type} (isCounted isReset : α → Bool)
    (ops : List α) : ∀ n : Int, 0 ≤ n →
    0 ≤ ops.foldl
        (fun n op => if isReset op then 0 else if isCounted op then n + 1 else n)
        n := by
  induction ops with
  | nil => intro n h; exact h
  | cons op ops ih =>
    intro n h
    rw [List.foldl_cons]
    apply ih
    split
    · exact le_refl 0
    · split
      · omega
      · exact h

theorem fw_apply_issued (s : FWState) (op : FWOp) :
    (fw_apply s op).total_permits_issued
      = (if FWOp.isResetIssued op then 0
          else if FWOp.isEnter op then s.total_permits_issued + 1
          else s.total_permits_issued) := by
  cases op with
  | enter => rfl
  | exit_ =>
    rw [show fw_apply s FWOp.exit_ = fw_exit s from rfl, fw_exit_eq]
    rfl
  | reset => rfl
  | resetIssued => rfl

theorem fw_run_issued (ops : List FWOp) : ∀ s : FWState,
    (fw_run s ops).total_permits_issued
      = ops.foldl
          (fun n op => if FWOp.isResetIssued op then 0
            else if FWOp.isEnter op then n + 1 else n)
          s.total_permits_issued := by
  induction ops with
  | nil => intro s; rfl
  | cons op ops ih =>
    intro s
    rw [show fw_run s (op :: ops) = fw_run (fw_apply s op) ops from rfl,
      List.foldl_cons, ih (fw_apply s op), fw_apply_issued]

theorem tb_apply_issued (s : TBState) (op : TBOp) :
    (tb_apply s op).total_permits_issued
      = (if TBOp.isResetIssued op then 0
          else if TBOp.isEnter op then s.total_permits_issued + 1
          else s.total_permits_issued) := by
  cases op with
  | enter => rfl
  | exit_ =>
    rw [show tb_apply s TBOp.exit_ = tb_exit s from rfl, tb_exit_eq]
    rfl
  | tick n =>
    show (tb_tick s n).1.total_permits_issued = s.total_permits_issued
    rw [(tb_tick_eq_core s n).2.2.1, (tb_tick_core_fields s n).2.2.2.2.1]
  | resetIssued => rfl

theorem tb_run_issued (ops : List TBOp) : ∀ s : TBState,
    (tb_run s ops).total_permits_issued
      = ops.foldl
          (fun n op => if TBOp.isResetIssued op then 0
            else if TBOp.isEnter op then n + 1 else n)
          s.total_permits_issued := by
  induction ops with
  | nil => intro s; rfl
  | cons op ops ih =>
    intro s
    rw [show tb_run s (op :: ops) = tb_run (tb_apply s op) ops from rfl,
      List.foldl_cons, ih (tb_apply s op), tb_apply_issued]

/-! ## MultiRateLimiter -/

/-- The mutable fields of a `MultiRateLimiter` object: the ordered child
limiters (abstracted by their state type `σ`) and its own issued counter.
A child is abstracted by its blocking acquire
`enterC : σ → Option σ` (`none` = `__enter__` blocks forever) and its
release `exitC : σ → σ`. -/
structure MultiState (σ : Type) where
  limiters : List σ
  total_permits_issued : Int

/-- The `for limiter in self._limiters: limiter.__enter__()` loop of
`MultiRateLimiter.__enter__`: acquire each child in order; a child whose
acquire never returns makes the whole loop never return. -/
def enterAll {σ : Type} (enterC : σ → Option σ) : List σ → Option (List σ)
  | [] => some []
  | c :: cs =>
    (enterC c).bind fun c2 => (enterAll enterC cs).map fun cs2 => c2 :: cs2

theorem enterAll_cons {σ : Type} (enterC : σ → Option σ) (c : σ) (cs : List σ) :
    enterAll enterC (c :: cs)
      = (enterC c).bind fun c2 => (enterAll enterC cs).map fun cs2 => c2 :: cs2 :=
  rfl

/-- `MultiRateLimiter.__enter__`: acquire every child in order, then
increment the composite's own issued counter (under its lock) and return. -/
def multi_enter {σ : Type} (enterC : σ → Option σ) (s : MultiState σ) :
    Option (MultiState σ) :=
  match enterAll enterC s.limiters with
  | none => none
  | some cs =>
    some { limiters := cs, total_permits_issued := s.total_permits_issued + 1 }

/-- `MultiRateLimiter.__exit__`: call `__exit__` on every child, in order. -/
def multi_exit {σ : Type} (exitC : σ → σ) (s : MultiState σ) : MultiState σ :=
  { s with limiters := s.limiters.map exitC }

/-- `MultiRateLimiter.reset_permits_issued`. -/
def multi_reset_permits_issued {σ : Type} (s : MultiState σ) : MultiState σ :=
  { s with total_permits_issued := 0 }

/-- Completed operations against a `MultiRateLimiter`. -/
inductive MultiOp where
  | enter
  | exit_
  | resetIssued
deriving Repr, DecidableEq

def MultiOp.isEnter : MultiOp → Bool
  | .enter => true
  | _ => false

def MultiOp.isResetIssued : MultiOp → Bool
  | .resetIssued => true
  | _ => false

def multi_apply {σ : Type} (enterC : σ → Option σ) (exitC : σ → σ)
    (s : MultiState σ) : MultiOp → Option (MultiState σ)
  | .enter => multi_enter enterC s
  | .exit_ => some (multi_exit exitC s)
  | .resetIssued => some (multi_reset_permits_issued s)

/-- Run a sequence of operations against a composite state; `none` when
some acquisition in the sequence blocks forever. -/
def multi_run {σ : Type} (enterC : σ → Option σ) (exitC : σ → σ) :
    MultiState σ → List MultiOp → Option (MultiState σ)
  | s, [] => some s
  | s, op :: ops =>
    match multi_apply enterC exitC s op with
    | none => none
    | some s2 => multi_run enterC exitC s2 ops

/-- The blocking acquire of a child limiter as seen by `MultiRateLimiter`
and by `limit`, instantiated with `FixedWindowRateLimiter`:
`__enter__` completes (with the updated state) iff the permit gate is
free, and blocks forever while it is held. -/
def fwChildEnter (s : FWState) : Option FWState :=
  if s.gateHeld then none else some (fw_enter s)

theorem multi_enter_some {σ : Type} (enterC : σ → Option σ) (s : MultiState σ)
    (cs : List σ) (hall : enterAll enterC s.limiters = some cs) :
    multi_enter enterC s
      = some { limiters := cs,
               total_permits_issued := s.total_permits_issued + 1 } := by
  unfold multi_enter
  rw [hall]

theorem enterAll_append_blocked {σ : Type} (enterC : σ → Option σ) (c : σ)
    (hc : enterC c = none) : ∀ pre post : List σ,
    enterAll enterC (pre ++ c :: post) = none := by
  intro pre
  induction pre with
  | nil =>
    intro post
    rw [List.nil_append, enterAll_cons, hc]
    rfl
  | cons p pre ih =>
    intro post
    rw [List.cons_append, enterAll_cons]
    simp only [ih post, Option.map_none']
    cases enterC p <;> rfl

theorem multi_enter_blocked {σ : Type} (enterC : σ → Option σ)
    (s : MultiState σ) (pre post : List σ) (c : σ) (hc : enterC c = none)
    (hsplit : s.limiters = pre ++ c :: post) :
    multi_enter enterC s = none := by
  unfold multi_enter
  rw [hsplit, enterAll_append_blocked enterC c hc pre post]

theorem enterAll_forall2 {σ : Type} (enterC : σ → Option σ) :
    ∀ l cs : List σ, enterAll enterC l = some cs →
      List.Forall₂ (fun a b => enterC a = some b) l cs := by
  intro l
  induction l with
  | nil =>
    intro cs h
    injection h with h
    subst h
    exact List.Forall₂.nil
  | cons c l ih =>
    intro cs h
    rw [enterAll_cons, Option.bind_eq_some] at h
    obtain ⟨c2, hc, h2⟩ := h
    rw [Option.map_eq_some'] at h2
    obtain ⟨cs2, hall, h3⟩ := h2
    subst h3
    exact List.Forall₂.cons hc (ih cs2 hall)

theorem multi_run_issued {σ : Type} (enterC : σ → Option σ) (exitC : σ → σ)
    (ops : List MultiOp) : ∀ s s' : MultiState σ,
    multi_run enterC exitC s ops = some s' →
    s'.total_permits_issued
      = ops.foldl
          (fun n op => if MultiOp.isResetIssued op then 0
            else if MultiOp.isEnter op then n + 1 else n)
          s.total_permits_issued := by
  induction ops with
  | nil =>
    intro s s' h
    injection h with h
    subst h
    rfl
  | cons op ops ih =>
    intro s s' h
    rw [List.foldl_cons]
    cases op with
    | enter =>
      cases hm : multi_enter enterC s with
      | none =>
        rw [show multi_run enterC exitC s (MultiOp.enter :: ops)
            = (match multi_enter enterC s with
                | none => none
                | some s2 => multi_run enterC exitC s2 ops) from rfl, hm] at h
        exact absurd h (by simp)
      | some s2 =>
        rw [show multi_run enterC exitC s (MultiOp.enter :: ops)
            = (match multi_enter enterC s with
                | none => none
                | some s2 => multi_run enterC exitC s2 ops) from rfl, hm] at h
        have hs2 : s2.total_permits_issued = s.total_permits_issued + 1 := by
          unfold multi_enter at hm
          cases hall : enterAll enterC s.limiters with
          | none => rw [hall] at hm; exact absurd hm (by simp)
          | some cs =>
            rw [hall] at hm
            injection hm with hm
            subst hm
            rfl
        rw [ih s2 s' h, hs2]
        rfl
    | exit_ =>
      have heq : multi_run enterC exitC s (MultiOp.exit_ :: ops)
          = multi_run enterC exitC (multi_exit exitC s) ops := rfl
      rw [heq] at h
      rw [ih (multi_exit exitC s) s' h]
      rfl
    | resetIssued =>
      have heq : multi_run enterC exitC s (MultiOp.resetIssued :: ops)
          = multi_run enterC exitC (multi_reset_permits_issued s) ops := rfl
      rw [heq] at h
      rw [ih (multi_reset_permits_issued s) s' h]
      rfl

/-! ## Claims about the issued counter, `limit`, and the composite -/

/-- C3 (counterexample): after a single acquisition on
`FixedWindowRateLimiter(1, 1)` that has not yet released,
`permits_issued` is already 1 while zero acquisitions have completed
release — the counter is incremented inside `__enter__`, not at release,
so it does not equal the number of completed releases. -/
theorem c3_counterexample :
    (fw_run (FixedWindowRateLimiter.init 1 1) [FWOp.enter]).total_permits_issued
        = 1 ∧
    countSinceReset FWOp.isExit FWOp.isResetIssued [FWOp.enter] = 0 :=
  ⟨rfl, rfl⟩

/-- C3 (amended): for every limiter and every sequence of completed
operations, `permits_issued` equals the number of acquisitions that have
completed the acquire (`__enter__`) step since construction or the most
recent `reset_permits_issued()`, and the value is never negative.  For
`MultiRateLimiter` the count is of completed composite acquisitions. -/
theorem c3_issued_counts_enters :
    (∀ (ws wp : Int) (ops : List FWOp),
      (fw_run (FixedWindowRateLimiter.init ws wp) ops).total_permits_issued
          = countSinceReset FWOp.isEnter FWOp.isResetIssued ops ∧
      0 ≤ (fw_run (FixedWindowRateLimiter.init ws wp) ops).total_permits_issued) ∧
    (∀ (es ep mb : Int) (tuf : ℚ) (t0 : TBState),
      TokenBucketRateLimiter.mk es ep mb tuf = Except.ok t0 →
      ∀ ops : List TBOp,
        (tb_run t0 ops).total_permits_issued
            = countSinceReset TBOp.isEnter TBOp.isResetIssued ops ∧
        0 ≤ (tb_run t0 ops).total_permits_issued) ∧
    (∀ (σ : Type) (enterC : σ → Option σ) (exitC : σ → σ) (cs : List σ)
      (ops : List MultiOp) (s' : MultiState σ),
      multi_run enterC exitC
          { limiters := cs, total_permits_issued := 0 } ops = some s' →
      s'.total_permits_issued
          = countSinceReset MultiOp.isEnter MultiOp.isResetIssued ops ∧
      0 ≤ s'.total_permits_issued) := by
  refine ⟨?_, ?_, ?_⟩
  · intro ws wp ops
    constructor
    · rw [fw_run_issued ops (FixedWindowRateLimiter.init ws wp)]
      rfl
    · rw [fw_run_issued ops (FixedWindowRateLimiter.init ws wp)]
      exact foldl_count_nonneg FWOp.isEnter FWOp.isResetIssued ops _ (le_refl 0)
  · intro es ep mb tuf t0 hmk ops
    constructor
    · rw [tb_run_issued ops t0, (tb_mk_fields hmk).2.2.1]
      rfl
    · rw [tb_run_issued ops t0, (tb_mk_fields hmk).2.2.1]
      exact foldl_count_nonneg TBOp.isEnter TBOp.isResetIssued ops 0 (le_refl 0)
  · intro σ enterC exitC cs ops s' h
    have h2 := multi_run_issued enterC exitC ops _ s' h
    constructor
    · rw [h2]
      rfl
    · rw [h2]
      exact foldl_count_nonneg MultiOp.isEnter MultiOp.isResetIssued ops _ (le_refl 0)

/-- C3 witness: an acquire/release pair on `FixedWindowRateLimiter(1, 5)`,
one acquire on `TokenBucketRateLimiter(1, 6, 2, 1/6)`, and one composite
acquire on a childless `MultiRateLimiter`. -/
theorem c3_issued_counts_enters_witness :
    ((fw_run (FixedWindowRateLimiter.init 1 5)
          [FWOp.enter, FWOp.exit_]).total_permits_issued
        = countSinceReset FWOp.isEnter FWOp.isResetIssued [FWOp.enter, FWOp.exit_] ∧
      0 ≤ (fw_run (FixedWindowRateLimiter.init 1 5)
          [FWOp.enter, FWOp.exit_]).total_permits_issued) ∧
    ((tb_run tbStart [TBOp.enter]).total_permits_issued
        = countSinceReset TBOp.isEnter TBOp.isResetIssued [TBOp.enter] ∧
      0 ≤ (tb_run tbStart [TBOp.enter]).total_permits_issued) ∧
    (({ limiters := ([] : List FWState), total_permits_issued := 1 }
          : MultiState FWState).total_permits_issued
        = countSinceReset MultiOp.isEnter MultiOp.isResetIssued [MultiOp.enter] ∧
      0 ≤ ({ limiters := ([] : List FWState), total_permits_issued := 1 }
          : MultiState FWState).total_permits_issued) :=
  ⟨c3_issued_counts_enters.1 1 5 [FWOp.enter, FWOp.exit_],
    c3_issued_counts_enters.2.1 1 6 2 (1/6) tbStart tbStart_mk [TBOp.enter],
    c3_issued_counts_enters.2.2 FWState fwChildEnter fw_exit [] [MultiOp.enter]
      { limiters := [], total_permits_issued := 1 } rfl⟩

/-- `RateLimiter.limit(method)`: the returned wrapper runs
`with self: return method(*args, **kwargs)` — acquire the limiter, call
the wrapped callable, and release on every exit path.  The limiter is
abstracted by its blocking acquire (`enterSelf`, `none` = blocks forever)
and its release bookkeeping (`exitSelf`); `method` either returns `β`
normally or raises `ε`. -/
def RateLimiter.limit {σ α ε β : Type} (enterSelf : σ → Option σ)
    (exitSelf : σ → σ) (method : α → Except ε β) (s : σ) (a : α) :
    Option (σ × Except ε β) :=
  match enterSelf s with
  | none => none
  | some s1 =>
    match method a with
    | Except.ok b => some (exitSelf s1, Except.ok b)
    | Except.error e => some (exitSelf s1, Except.error e)

/-- C8: the wrapper built by `limit` performs the scoped acquisition
around each invocation and is transparent: whenever the acquire
completes, the wrapped call returns exactly `method a` — the normal
return value unchanged, or the raised exception unswallowed — and in
both cases the resulting limiter state has the release/bookkeeping step
(`exitSelf`) applied before the result surfaces to the caller. -/
theorem c8_limit_wrapper {σ α ε β : Type} (enterSelf : σ → Option σ)
    (exitSelf : σ → σ) (method : α → Except ε β) (s s1 : σ) (a : α)
    (h : enterSelf s = some s1) :
    RateLimiter.limit enterSelf exitSelf method s a
      = some (exitSelf s1, method a) := by
  unfold RateLimiter.limit
  rw [h]
  cases hm : method a <;> rfl

/-- C8 witness: `limit` around a callable that raises, on an open
`FixedWindowRateLimiter(1, 5)` — the release bookkeeping still runs and
the error surfaces unswallowed. -/
theorem c8_limit_wrapper_witness :
    RateLimiter.limit fwChildEnter fw_exit
        (fun _ : Unit => (Except.error ValueError.maxBurst : Except ValueError Int))
        (FixedWindowRateLimiter.init 1 5) ()
      = some (fw_exit (fw_enter (FixedWindowRateLimiter.init 1 5)),
          Except.error ValueError.maxBurst) :=
  c8_limit_wrapper fwChildEnter fw_exit
    (fun _ : Unit => (Except.error ValueError.maxBurst : Except ValueError Int))
    (FixedWindowRateLimiter.init 1 5)
    (fw_enter (FixedWindowRateLimiter.init 1 5)) () rfl

/-- C9: `MultiRateLimiter.__enter__` acquires each child in order — when
every child admits, the children are updated pointwise by their own
acquires (`Forall₂`) and the composite's own issued counter increments
exactly once per fully-completed composite acquisition (not once per
child); when some child blocks, the composite acquisition blocks and its
result does not depend on the children after the blocking one (they are
never attempted); `__exit__` releases every child. -/
theorem c9_multi_semantics {σ : Type} (enterC : σ → Option σ) (exitC : σ → σ)
    (s s2 : MultiState σ) (cs : List σ) (pre post : List σ) (c : σ)
    (hall : enterAll enterC s.limiters = some cs) (hc : enterC c = none)
    (hsplit : s2.limiters = pre ++ c :: post) :
    multi_enter enterC s
        = some { limiters := cs,
                 total_permits_issued := s.total_permits_issued + 1 } ∧
    List.Forall₂ (fun a b => enterC a = some b) s.limiters cs ∧
    multi_enter enterC s2 = none ∧
    (multi_exit exitC s).limiters = List.map exitC s.limiters :=
  ⟨multi_enter_some enterC s cs hall,
    enterAll_forall2 enterC s.limiters cs hall,
    multi_enter_blocked enterC s2 pre post c hc hsplit, rfl⟩

/-- C9 witness: a composite of one open `FixedWindowRateLimiter(1, 5)`
admits and counts once; a composite of one exhausted
`FixedWindowRateLimiter(1, 1)` blocks. -/
theorem c9_multi_semantics_witness :
    multi_enter fwChildEnter
        { limiters := [FixedWindowRateLimiter.init 1 5], total_permits_issued := 0 }
      = some { limiters := [fw_enter (FixedWindowRateLimiter.init 1 5)],
               total_permits_issued := 0 + 1 } ∧
    List.Forall₂ (fun a b => fwChildEnter a = some b)
      [FixedWindowRateLimiter.init 1 5]
      [fw_enter (FixedWindowRateLimiter.init 1 5)] ∧
    multi_enter fwChildEnter
        { limiters := [fw_enter (FixedWindowRateLimiter.init 1 1)],
          total_permits_issued := 0 } = none ∧
    (multi_exit fw_exit
        { limiters := [FixedWindowRateLimiter.init 1 5],
          total_permits_issued := 0 }).limiters
      = List.map fw_exit [FixedWindowRateLimiter.init 1 5] :=
  c9_multi_semantics fwChildEnter fw_exit
    { limiters := [FixedWindowRateLimiter.init 1 5], total_permits_issued := 0 }
    { limiters := [fw_enter (FixedWindowRateLimiter.init 1 1)],
      total_permits_issued := 0 }
    [fw_enter (FixedWindowRateLimiter.init 1 5)] [] []
    (fw_enter (FixedWindowRateLimiter.init 1 1)) rfl rfl rfl

/-- C10: a `MultiRateLimiter` with no children is a working limiter whose
acquisition never blocks: from every state with an empty child list,
`__enter__` completes immediately, still incrementing the issued counter
by one, and `__exit__` releases no children and leaves the state
unchanged. -/
theorem c10_empty_multi {σ : Type} (enterC : σ → Option σ) (exitC : σ → σ)
    (s : MultiState σ) (h : s.limiters = []) :
    multi_enter enterC s
        = some { limiters := [],
                 total_permits_issued := s.total_permits_issued + 1 } ∧
    multi_exit exitC s = s := by
  obtain ⟨cs, n⟩ := s
  have h2 : cs = [] := h
  subst h2
  exact ⟨rfl, rfl⟩

/-- C10 witness: the childless composite at issued counter 7. -/
theorem c10_empty_multi_witness :
    multi_enter fwChildEnter
        { limiters := ([] : List FWState), total_permits_issued := 7 }
      = some { limiters := [], total_permits_issued := 7 + 1 } ∧
    multi_exit fw_exit
        { limiters := ([] : List FWState), total_permits_issued := 7 }
      = { limiters := [], total_permits_issued := 7 } :=
  c10_empty_multi fwChildEnter fw_exit
    { limiters := ([] : List FWState), total_permits_issued := 7 } rfl
